import Mathlib

/-!
Verification of the WonderWords word-lookup application (src/main.py).

The program is a single-file interactive tool: user input → prompt
construction → language-model call → response cleaning and validation
(pydantic model `WordInfo`) → image lookup (Unsplash) → session history.

Shallow embedding conventions:
  * Raw texts (model responses, user input, URLs) are `List Char`,
    modelling Python strings at character granularity so that the
    regex-based fence stripping can be stated byte-for-byte.
  * JSON-decoded values use the inductive `Json` type; the external JSON
    decoder (Python's json module, behind pydantic) is an abstract
    parameter `decode : List Char → Option Json`, `none` meaning the text
    is not well-formed JSON.
  * The language model and the HTTP client are abstract function
    parameters, so theorems quantify over all mocked behaviours.
  * Exceptions become `Except`/`Option` results; the Streamlit handler
    under the Explore button becomes a pure transition `exploreWord`
    that also counts how many model/image calls the executed path makes.
-/

/-- Python whitespace recognizer used by `str.strip()` and the regex
class `\s` (ASCII range: space, tab, newline, carriage return, vertical
tab, form feed). -/
def isPySpace (c : Char) : Bool :=
  c = ' ' || c = '\t' || c = '\n' || c = '\r' || c = '\x0b' || c = '\x0c'

/-- Remove leading Python whitespace (the left half of `str.strip()`). -/
def lstripWs (s : List Char) : List Char :=
  s.dropWhile isPySpace

/-- Remove trailing Python whitespace (the right half of `str.strip()`). -/
def rstripWs (s : List Char) : List Char :=
  (s.reverse.dropWhile isPySpace).reverse

/-- Python `str.strip()`: remove leading and trailing whitespace. -/
def pyStrip (s : List Char) : List Char :=
  rstripWs (lstripWs s)

/-- Python `str.lower()` on the ASCII range, applied character-wise. -/
def pyLower (s : List Char) : List Char :=
  s.map Char.toLower

/-- The literal opening fence `"```json"` matched by the first regex
alternative in src/main.py line 77. -/
def fenceOpen : List Char :=
  "```json".data

/-- The literal closing fence `"```"` matched by the second regex
alternative in src/main.py line 77. -/
def ticks : List Char :=
  "```".data

/-- First regex alternative of src/main.py line 76-78: an anchored
leading match of `^```json\s*` is deleted; the pattern requires the
literal lowercase `"```json"` at position 0 followed by greedily
consumed whitespace. -/
def stripLeadingFence (s : List Char) : List Char :=
  if s.take 7 = fenceOpen then lstripWs (s.drop 7) else s

/-- Second regex alternative of src/main.py line 76-78: a match of
`\s*```$` must end at the end of the string, so it deletes a final
`"```"` together with the maximal whitespace run preceding it. -/
def stripTrailingFence (s : List Char) : List Char :=
  if s.drop (s.length - 3) = ticks then rstripWs (s.take (s.length - 3)) else s

/-- The cleaning step of `get_word_details` (src/main.py lines 74-78):
`re.sub(r"^```json\s*|\s*```$", "", response_text.strip(), flags=re.DOTALL)`.
`re.sub` scans left to right; the anchored first alternative can only
fire at position 0 and the `$`-anchored second alternative only at the
end, so the substitution is the composition below. -/
def cleanResponse (s : List Char) : List Char :=
  stripTrailingFence (stripLeadingFence (pyStrip s))

/-- JSON values as produced by the JSON decoder behind
`WordInfo.parse_raw`. Objects are association lists; `json.loads`
never produces duplicate keys, so first-match lookup is the dict
lookup. -/
inductive Json where
  | str (s : String)
  | num (n : Int)
  | bool (b : Bool)
  | null
  | arr (elems : List Json)
  | obj (fields : List (String × Json))

/-- Dict lookup on a decoded JSON object. -/
def lookupJ (fields : List (String × Json)) (k : String) : Option Json :=
  match fields with
  | [] => none
  | (k', v) :: rest => if k' = k then some v else lookupJ rest k

/-- The pydantic model `WordInfo` of src/main.py lines 29-38: five
required fields, all either `str` or `list[str]`. -/
structure WordInfo where
  meaning : String
  opposites : List String
  similar_words : List String
  sentences : List String
  image_prompt : String
deriving Repr, DecidableEq

/-- Validation of a `list[str]` field: every element of the JSON array
must be a JSON string (pydantic v2 does not coerce numbers to strings). -/
def strList : List Json → Except String (List String)
  | [] => .ok []
  | .str s :: rest =>
      match strList rest with
      | .ok l => .ok (s :: l)
      | .error e => .error e
  | _ :: _ => .error "Input should be a valid string"

/-- Validation of one required `str` field of `WordInfo`. -/
def reqStr (fields : List (String × Json)) (k : String) : Except String String :=
  match lookupJ fields k with
  | none => .error "Field required"
  | some (.str s) => .ok s
  | some _ => .error "Input should be a valid string"

/-- Validation of one required `list[str]` field of `WordInfo`. -/
def reqStrList (fields : List (String × Json)) (k : String) :
    Except String (List String) :=
  match lookupJ fields k with
  | none => .error "Field required"
  | some (.arr es) => strList es
  | some _ => .error "Input should be a valid list"

/-- Pydantic validation of a decoded JSON value against the `WordInfo`
schema (the validation half of `WordInfo.parse_raw`, src/main.py line
83): the value must be an object, each of the five fields must be
present with the declared type, extra keys are ignored (pydantic
default `extra="ignore"`), and the record is built only when every
field validates — no partial record exists. -/
def WordInfo.validate (j : Json) : Except String WordInfo :=
  match j with
  | .obj fields =>
      match reqStr fields "meaning", reqStrList fields "opposites",
            reqStrList fields "similar_words", reqStrList fields "sentences",
            reqStr fields "image_prompt" with
      | .ok m, .ok o, .ok sw, .ok se, .ok ip =>
          .ok { meaning := m, opposites := o, similar_words := sw,
                sentences := se, image_prompt := ip }
      | .error e, _, _, _, _ => .error e
      | _, .error e, _, _, _ => .error e
      | _, _, .error e, _, _ => .error e
      | _, _, _, .error e, _ => .error e
      | _, _, _, _, .error e => .error e
  | _ => .error "Input should be an object"

/-- The full `WordInfo.parse_raw` call of src/main.py line 83: decode
the cleaned text as JSON (`decode`, the external JSON parser; `none`
models a JSON syntax error, which pydantic also reports as a
`ValidationError`), then validate against the schema. -/
def WordInfo.parse_raw (decode : List Char → Option Json) (txt : List Char) :
    Except String WordInfo :=
  match decode txt with
  | none => .error "Invalid JSON"
  | some j => WordInfo.validate j

/-- Text of the prompt template before the `{word}` placeholder
(src/main.py lines 48-68, `{{`/`}}` unescaped to literal braces). -/
def promptHead : List Char :=
  "\n    You are a kind English tutor for kids aged 6–10.\n\n    For the word \"".data

/-- Text of the prompt template after the `{word}` placeholder. -/
def promptTail : List Char :=
  ("\", provide:\n    1. A short and simple meaning.\n    2. Three opposite words (antonyms).\n    3. Three similar words (synonyms).\n    4. Three very simple example sentences with 5 to 6 words. This is for Grade 1 to 3 kids\n    5. A short, vivid description for an illustration image (e.g., \"A happy sun smiling in the sky\").\n\n    Respond ONLY in JSON format:\n    \x7b\n        \"meaning\": \"...\",\n        \"opposites\": [\"...\", \"...\", \"...\"],\n        \"similar_words\": [\"...\", \"...\", \"...\"],\n        \"sentences\": [\"...\", \"...\", \"...\"],\n        \"image_prompt\": \"...\"\n    \x7d\n    ").data

/-- The formatted prompt: `prompt.invoke({"word": word})` substitutes the
word into the template. -/
def buildPrompt (word : List Char) : List Char :=
  promptHead ++ word ++ promptTail

/-- The body of `get_word_details` (src/main.py lines 42-87): build the
prompt, invoke the model (`llm`, abstract), clean the response, run
`WordInfo.parse_raw`; a `ValidationError` is converted into
`ValueError("AI response format error.")`, modelled as the `.error`
branch. -/
def get_word_details (decode : List Char → Option Json)
    (llm : List Char → List Char) (word : List Char) : Except String WordInfo :=
  match WordInfo.parse_raw decode (cleanResponse (llm (buildPrompt word))) with
  | .ok d => .ok d
  | .error _ => .error "AI response format error."

/-- Outcome of one `requests.get` call: either a response with an HTTP
status code, or a raised transport-level exception. -/
inductive HttpResult where
  | resp (status : Nat)
  | exn
deriving Repr, DecidableEq

/-- URL construction of `get_image_for_word` (src/main.py lines 95-96):
spaces of the description become `+`, and the fixed qualifier terms are
appended. -/
def buildImageUrl (description : List Char) : List Char :=
  "https://source.unsplash.com/512x512/?".data
    ++ description.map (fun c => if c = ' ' then '+' else c)
    ++ ",cartoon,colorful".data

/-- The body of `get_image_for_word` (src/main.py lines 91-105): build
the Unsplash URL, issue one GET (`http`, abstract), return the URL on
status 200 and `none` on any other status; the surrounding
`try/except Exception` turns any raised exception into `none` as well. -/
def get_image_for_word (http : List Char → HttpResult)
    (description : List Char) : Option (List Char) :=
  match http (buildImageUrl description) with
  | .resp status =>
      if status = 200 then some (buildImageUrl description) else none
  | .exn => none

/-- Session history: `st.session_state.history`, a Python dict from
normalized word to record, modelled as an insertion-ordered association
list without duplicate keys. -/
def History : Type :=
  List (List Char × WordInfo)

/-- Dict assignment `history[word] = info` (src/main.py line 146):
overwrite the existing entry in place if the key is present, otherwise
append a new entry. -/
def histPut (h : History) (k : List Char) (v : WordInfo) : History :=
  match h with
  | [] => [(k, v)]
  | (k', v') :: rest =>
      if k' = k then (k, v) :: rest else (k', v') :: histPut rest k v

/-- Dict lookup `history[word]`. -/
def histGet (h : History) (k : List Char) : Option WordInfo :=
  match h with
  | [] => none
  | (k', v) :: rest => if k' = k then some v else histGet rest k

/-- Number of history entries stored under a given key. -/
def countKey (h : History) (k : List Char) : Nat :=
  match h with
  | [] => 0
  | (k', _) :: rest => (if k' = k then 1 else 0) + countKey rest k

/-- What the Explore handler displayed: the warning for blank input, a
success panel, or the generic error message. -/
inductive Outcome where
  | warning
  | success (info : WordInfo) (image : Option (List Char))
  | failure
deriving Repr, DecidableEq

/-- Result of one press of the Explore button: the history afterwards,
how many language-model calls and image-endpoint calls the executed
path performed, and what was displayed. -/
structure StepResult where
  history : History
  modelCalls : Nat
  imageCalls : Nat
  outcome : Outcome

/-- The Explore Word handler (src/main.py lines 137-180): blank or
whitespace-only input takes the warning path with no backend call;
otherwise the input is normalized (trimmed, lowercased), the lookup
runs, and on success the image lookup runs and the history entry is
written; any exception from `get_word_details` reaches the generic
`except` branch before the image call and the history write. -/
def exploreWord (decode : List Char → Option Json)
    (llm : List Char → List Char) (http : List Char → HttpResult)
    (history : History) (word : List Char) : StepResult :=
  if pyStrip word = [] then
    { history := history, modelCalls := 0, imageCalls := 0,
      outcome := .warning }
  else
    match get_word_details decode llm (pyLower (pyStrip word)) with
    | .ok info =>
        { history := histPut history (pyLower (pyStrip word)) info,
          modelCalls := 1, imageCalls := 1,
          outcome := .success info (get_image_for_word http info.image_prompt.data) }
    | .error _ =>
        { history := history, modelCalls := 1, imageCalls := 0,
          outcome := .failure }

/-- A JSON value is a string. -/
def isStrVal : Json → Bool
  | .str _ => true
  | _ => false

/-- A JSON value is an array of strings. -/
def isStrArr : Json → Bool
  | .arr es => es.all isStrVal
  | _ => false

/-- Key `k` is present in the object and bound to a JSON string. -/
def keyIsStr (fields : List (String × Json)) (k : String) : Bool :=
  match lookupJ fields k with
  | some v => isStrVal v
  | none => false

/-- Key `k` is present in the object and bound to an array of strings. -/
def keyIsStrArr (fields : List (String × Json)) (k : String) : Bool :=
  match lookupJ fields k with
  | some v => isStrArr v
  | none => false

/-- Decidable schema check mirroring the spec's phrase "well-formed JSON
matching the schema": an object whose five required keys are present
with the declared types. -/
def schemaOk (j : Json) : Bool :=
  match j with
  | .obj fields =>
      keyIsStr fields "meaning" && keyIsStrArr fields "opposites" &&
      keyIsStrArr fields "similar_words" && keyIsStrArr fields "sentences" &&
      keyIsStr fields "image_prompt"
  | _ => false

/-- The five key-value pairs of a schema-conformant object built from
given field values. -/
def wordFields (m : String) (o sw se : List String) (ip : String) :
    List (String × Json) :=
  [("meaning", .str m),
   ("opposites", .arr (o.map Json.str)),
   ("similar_words", .arr (sw.map Json.str)),
   ("sentences", .arr (se.map Json.str)),
   ("image_prompt", .str ip)]

/-- The five-key JSON object built from given field values, used to
state schema properties. -/
def mkWordJson (m : String) (o sw se : List String) (ip : String) : Json :=
  .obj (wordFields m o sw se ip)

/-- Mock record matching the spec's example scenario for the word
"happy", used to instantiate proved theorems at concrete inputs. -/
def mockFields : List (String × Json) :=
  wordFields "feeling good" ["sad", "unhappy", "gloomy"]
    ["glad", "joyful", "cheerful"]
    ["I am happy today.", "She feels happy now.", "We are happy here."]
    "a smiling sun"

/-- Mock record for exercising the session-history operations. -/
def mockRecord : WordInfo :=
  { meaning := "very small", opposites := ["big", "large", "huge"],
    similar_words := ["tiny", "little", "mini"],
    sentences := ["The ant is small."], image_prompt := "a small ant" }

/-- Second mock record, distinct from `mockRecord`. -/
def mockRecord2 : WordInfo :=
  { meaning := "not big", opposites := ["big"], similar_words := ["tiny"],
    sentences := ["A mouse is small."], image_prompt := "a mouse" }

/-! ### Helper lemmas about the validator -/

theorem strList_map_str (l : List String) :
    strList (l.map Json.str) = .ok l := by
  induction l with
  | nil => rfl
  | cons a t ih => simp [strList, ih]

theorem strList_all_str {es : List Json} {l : List String}
    (h : strList es = .ok l) : es.all isStrVal = true := by
  induction es generalizing l with
  | nil => rfl
  | cons e t ih =>
    cases e with
    | str s =>
      cases ht : strList t with
      | ok l' =>
        simp only [List.all_cons, isStrVal, Bool.true_and]
        exact ih ht
      | error msg => rw [strList, ht] at h; exact absurd h (by simp)
    | num n => exact absurd h (by simp [strList])
    | bool b => exact absurd h (by simp [strList])
    | null => exact absurd h (by simp [strList])
    | arr es' => exact absurd h (by simp [strList])
    | obj fs => exact absurd h (by simp [strList])

theorem keyIsStr_of_reqStr_ok {fields : List (String × Json)} {k : String}
    {s : String} (h : reqStr fields k = .ok s) : keyIsStr fields k = true := by
  unfold reqStr at h
  unfold keyIsStr
  cases hl : lookupJ fields k with
  | none => rw [hl] at h; exact absurd h (by simp)
  | some v =>
    rw [hl] at h
    cases v with
    | str s' => rfl
    | num n => exact absurd h (by simp)
    | bool b => exact absurd h (by simp)
    | null => exact absurd h (by simp)
    | arr es => exact absurd h (by simp)
    | obj fs => exact absurd h (by simp)

theorem keyIsStrArr_of_reqStrList_ok {fields : List (String × Json)}
    {k : String} {l : List String} (h : reqStrList fields k = .ok l) :
    keyIsStrArr fields k = true := by
  unfold reqStrList at h
  unfold keyIsStrArr
  cases hl : lookupJ fields k with
  | none => rw [hl] at h; exact absurd h (by simp)
  | some v =>
    rw [hl] at h
    cases v with
    | arr es =>
      show isStrArr (.arr es) = true
      show es.all isStrVal = true
      exact strList_all_str h
    | str s' => exact absurd h (by simp)
    | num n => exact absurd h (by simp)
    | bool b => exact absurd h (by simp)
    | null => exact absurd h (by simp)
    | obj fs => exact absurd h (by simp)

theorem schemaOk_of_validate_ok {j : Json} {r : WordInfo}
    (h : WordInfo.validate j = .ok r) : schemaOk j = true := by
  cases j with
  | obj fields =>
    simp only [WordInfo.validate] at h
    cases h1 : reqStr fields "meaning" with
    | error e => rw [h1] at h; exact absurd h (by simp)
    | ok m =>
      cases h2 : reqStrList fields "opposites" with
      | error e => rw [h1, h2] at h; exact absurd h (by simp)
      | ok o =>
        cases h3 : reqStrList fields "similar_words" with
        | error e => rw [h1, h2, h3] at h; exact absurd h (by simp)
        | ok sw =>
          cases h4 : reqStrList fields "sentences" with
          | error e => rw [h1, h2, h3, h4] at h; exact absurd h (by simp)
          | ok se =>
            cases h5 : reqStr fields "image_prompt" with
            | error e => rw [h1, h2, h3, h4, h5] at h; exact absurd h (by simp)
            | ok ip =>
              simp [schemaOk, keyIsStr_of_reqStr_ok h1,
                keyIsStrArr_of_reqStrList_ok h2,
                keyIsStrArr_of_reqStrList_ok h3,
                keyIsStrArr_of_reqStrList_ok h4,
                keyIsStr_of_reqStr_ok h5]
  | str s => exact absurd h (by simp [WordInfo.validate])
  | num n => exact absurd h (by simp [WordInfo.validate])
  | bool b => exact absurd h (by simp [WordInfo.validate])
  | null => exact absurd h (by simp [WordInfo.validate])
  | arr es => exact absurd h (by simp [WordInfo.validate])

theorem validate_error_of_not_schemaOk {j : Json} (h : schemaOk j = false) :
    ∃ msg, WordInfo.validate j = .error msg := by
  cases hv : WordInfo.validate j with
  | ok r => rw [schemaOk_of_validate_ok hv] at h; exact absurd h (by simp)
  | error msg => exact ⟨msg, rfl⟩

theorem validate_obj_ok (fields : List (String × Json)) (m ip : String)
    (o sw se : List String)
    (hm : lookupJ fields "meaning" = some (.str m))
    (ho : lookupJ fields "opposites" = some (.arr (o.map Json.str)))
    (hsw : lookupJ fields "similar_words" = some (.arr (sw.map Json.str)))
    (hse : lookupJ fields "sentences" = some (.arr (se.map Json.str)))
    (hip : lookupJ fields "image_prompt" = some (.str ip)) :
    WordInfo.validate (.obj fields) =
      .ok { meaning := m, opposites := o, similar_words := sw,
            sentences := se, image_prompt := ip } := by
  have hm' : reqStr fields "meaning" = .ok m := by
    unfold reqStr; rw [hm]
  have ho' : reqStrList fields "opposites" = .ok o := by
    unfold reqStrList; rw [ho]; exact strList_map_str o
  have hsw' : reqStrList fields "similar_words" = .ok sw := by
    unfold reqStrList; rw [hsw]; exact strList_map_str sw
  have hse' : reqStrList fields "sentences" = .ok se := by
    unfold reqStrList; rw [hse]; exact strList_map_str se
  have hip' : reqStr fields "image_prompt" = .ok ip := by
    unfold reqStr; rw [hip]
  simp only [WordInfo.validate]
  rw [hm', ho', hsw', hse', hip']

theorem validate_meaning_missing {fields : List (String × Json)}
    (h : lookupJ fields "meaning" = none) :
    WordInfo.validate (.obj fields) = .error "Field required" := by
  have hm : reqStr fields "meaning" = .error "Field required" := by
    unfold reqStr; rw [h]
  simp only [WordInfo.validate]
  rw [hm]
  cases reqStrList fields "opposites" <;>
    cases reqStrList fields "similar_words" <;>
    cases reqStrList fields "sentences" <;>
    cases reqStr fields "image_prompt" <;> rfl

theorem lookupJ_append_right {pre rest : List (String × Json)} {k : String}
    (h : ∀ kv ∈ pre, kv.1 ≠ k) :
    lookupJ (pre ++ rest) k = lookupJ rest k := by
  induction pre with
  | nil => rfl
  | cons a t ih =>
    obtain ⟨k', v⟩ := a
    have ha : k' ≠ k := h (k', v) (by simp)
    simp only [List.cons_append, lookupJ, if_neg ha]
    exact ih fun kv hkv => h kv (List.mem_cons_of_mem _ hkv)

/-! ### Claim theorems about the lookup service and the validator -/

/-- C1: for every non-empty trimmed input word, if the language-model
capability is mocked so that the cleaned response decodes to a JSON
object with the five schema keys bound to values of the declared types,
then `get_word_details` returns the `WordInfo` record whose five fields
are exactly the decoded JSON values (round-trip property). -/
theorem get_word_details_roundtrip (decode : List Char → Option Json)
    (llm : List Char → List Char) (word : List Char)
    (fields : List (String × Json)) (m ip : String) (o sw se : List String)
    (hword : pyStrip word = word) (hne : word ≠ [])
    (hdec : decode (cleanResponse (llm (buildPrompt word))) =
      some (.obj fields))
    (hm : lookupJ fields "meaning" = some (.str m))
    (ho : lookupJ fields "opposites" = some (.arr (o.map Json.str)))
    (hsw : lookupJ fields "similar_words" = some (.arr (sw.map Json.str)))
    (hse : lookupJ fields "sentences" = some (.arr (se.map Json.str)))
    (hip : lookupJ fields "image_prompt" = some (.str ip)) :
    get_word_details decode llm word =
      .ok { meaning := m, opposites := o, similar_words := sw,
            sentences := se, image_prompt := ip } := by
  unfold get_word_details WordInfo.parse_raw
  rw [hdec]
  simp [validate_obj_ok fields m ip o sw se hm ho hsw hse hip]

/-- Witness for C1 at the spec's example scenario: the word `happy`
with the mocked decoded response of section 8 of the spec. -/
theorem get_word_details_roundtrip_check :
    get_word_details (fun _ => some (.obj mockFields)) (fun _ => "x".data)
      "happy".data =
      .ok { meaning := "feeling good",
            opposites := ["sad", "unhappy", "gloomy"],
            similar_words := ["glad", "joyful", "cheerful"],
            sentences := ["I am happy today.", "She feels happy now.",
                          "We are happy here."],
            image_prompt := "a smiling sun" } :=
  get_word_details_roundtrip (fun _ => some (.obj mockFields))
    (fun _ => "x".data) "happy".data mockFields "feeling good" "a smiling sun"
    ["sad", "unhappy", "gloomy"] ["glad", "joyful", "cheerful"]
    ["I am happy today.", "She feels happy now.", "We are happy here."]
    (by decide) (by decide) rfl rfl rfl rfl rfl rfl

/-- C2: whenever the cleaned model response is malformed JSON (the
decoder yields nothing) or decodes to a value that is not an object
with the five required keys of the declared types, `get_word_details`
fails with the format error and produces no `WordInfo` record. -/
theorem get_word_details_rejects_invalid (decode : List Char → Option Json)
    (llm : List Char → List Char) (word : List Char)
    (h : ∀ j, decode (cleanResponse (llm (buildPrompt word))) = some j →
      schemaOk j = false) :
    get_word_details decode llm word = .error "AI response format error." := by
  unfold get_word_details WordInfo.parse_raw
  cases hdec : decode (cleanResponse (llm (buildPrompt word))) with
  | none => rfl
  | some j =>
    obtain ⟨msg, hmsg⟩ := validate_error_of_not_schemaOk (h j hdec)
    simp [hmsg]

/-- Witness for C2: a decoder that reports a JSON syntax error and a
decoder returning a JSON value of the wrong shape both make the lookup
fail with the format error. -/
theorem get_word_details_rejects_invalid_check :
    get_word_details (fun _ => none) (fun _ => []) "dog".data =
      .error "AI response format error." ∧
    get_word_details (fun _ => some .null) (fun _ => []) "dog".data =
      .error "AI response format error." :=
  ⟨get_word_details_rejects_invalid (fun _ => none) (fun _ => []) "dog".data
    (fun j h => by cases h),
   get_word_details_rejects_invalid (fun _ => some .null) (fun _ => [])
    "dog".data (fun j h => by cases h; rfl)⟩

/-- C9: validation enforces no cardinality on the list fields — the
validator accepts `opposites`, `similar_words` and `sentences` lists of
any length whatsoever (in particular two or four elements, not only the
three the prompt requests). -/
theorem validate_accepts_any_cardinality (m ip : String)
    (o sw se : List String) :
    WordInfo.validate (mkWordJson m o sw se ip) =
      .ok { meaning := m, opposites := o, similar_words := sw,
            sentences := se, image_prompt := ip } :=
  validate_obj_ok (wordFields m o sw se ip) m ip o sw se rfl rfl rfl rfl rfl

/-- C10: a JSON object carrying the five required keys with the correct
types plus arbitrary additional keys (here: any prefix of unknown keys
and any trailing keys) is accepted, and the record is built from the
five known fields, the extra keys being ignored. -/
theorem validate_ignores_extra_keys (pre post : List (String × Json))
    (m ip : String) (o sw se : List String)
    (hpre : ∀ kv ∈ pre, kv.1 ∉ (["meaning", "opposites", "similar_words",
      "sentences", "image_prompt"] : List String)) :
    WordInfo.validate (.obj (pre ++ wordFields m o sw se ip ++ post)) =
      .ok { meaning := m, opposites := o, similar_words := sw,
            sentences := se, image_prompt := ip } := by
  have hk : ∀ k, k ∈ (["meaning", "opposites", "similar_words", "sentences",
      "image_prompt"] : List String) →
      lookupJ (pre ++ wordFields m o sw se ip ++ post) k =
        lookupJ (wordFields m o sw se ip ++ post) k := by
    intro k hkmem
    rw [List.append_assoc]
    exact lookupJ_append_right fun kv hkv hkk => hpre kv hkv (hkk ▸ hkmem)
  refine validate_obj_ok _ m ip o sw se ?_ ?_ ?_ ?_ ?_ <;>
    rw [hk _ (by decide)] <;> rfl

/-- Witness for C10: extra keys `word` (before) and `note` (after) are
ignored around a well-formed payload. -/
theorem validate_ignores_extra_keys_check :
    WordInfo.validate (.obj ([("word", .str "small")] ++
      wordFields "very small" ["big"] ["tiny"] ["The ant is small."] "an ant"
      ++ [("note", .null)])) =
      .ok { meaning := "very small", opposites := ["big"],
            similar_words := ["tiny"], sentences := ["The ant is small."],
            image_prompt := "an ant" } :=
  validate_ignores_extra_keys [("word", .str "small")] [("note", .null)]
    "very small" "an ant" ["big"] ["tiny"] ["The ant is small."] (by decide)

/-- Counterexample to C8: the validator accepts a payload whose
`meaning` value is the empty string and returns a fully populated
record, so validation does not fail on empty `meaning`. -/
theorem validate_accepts_empty_meaning :
    WordInfo.validate (mkWordJson "" ["big", "large", "huge"]
      ["tiny", "little", "mini"]
      ["The ant is small.", "I see an ant.", "Ants are small."]
      "a tiny ant") =
      .ok { meaning := "", opposites := ["big", "large", "huge"],
            similar_words := ["tiny", "little", "mini"],
            sentences := ["The ant is small.", "I see an ant.",
                          "Ants are small."],
            image_prompt := "a tiny ant" } := rfl

/-- C8 (amended): the `meaning` field is required — validation fails
when the key is missing — but its value is not checked for
non-emptiness: the empty string is accepted. -/
theorem meaning_required_but_empty_accepted (fields : List (String × Json))
    (o sw se : List String) (ip : String) :
    (lookupJ fields "meaning" = none →
      WordInfo.validate (.obj fields) = .error "Field required") ∧
    WordInfo.validate (mkWordJson "" o sw se ip) =
      .ok { meaning := "", opposites := o, similar_words := sw,
            sentences := se, image_prompt := ip } :=
  ⟨fun h => validate_meaning_missing h,
   validate_obj_ok (wordFields "" o sw se ip) "" ip o sw se rfl rfl rfl rfl rfl⟩

/-- Witness for the amended C8: an object with no keys is rejected for
the missing `meaning`, and a payload with empty `meaning` is accepted. -/
theorem meaning_required_but_empty_accepted_check :
    WordInfo.validate (.obj []) = .error "Field required" ∧
    WordInfo.validate (mkWordJson "" ["big"] ["tiny"] ["The cat is small."]
      "an ant") =
      .ok { meaning := "", opposites := ["big"], similar_words := ["tiny"],
            sentences := ["The cat is small."], image_prompt := "an ant" } :=
  ⟨(meaning_required_but_empty_accepted [] ["big"] ["tiny"]
      ["The cat is small."] "an ant").1 rfl,
   (meaning_required_but_empty_accepted [] ["big"] ["tiny"]
      ["The cat is small."] "an ant").2⟩

/-! ### Claim theorems about the UI handler, image lookup and history -/

/-- C5: blank or whitespace-only input takes only the warning path: no
model call, no image call, history untouched. -/
theorem exploreWord_blank_input_no_calls (decode : List Char → Option Json)
    (llm : List Char → List Char) (http : List Char → HttpResult)
    (history : History) (word : List Char) (hw : pyStrip word = []) :
    exploreWord decode llm http history word =
      { history := history, modelCalls := 0, imageCalls := 0,
        outcome := .warning } := by
  unfold exploreWord
  rw [if_pos hw]

/-- Witness for C5: the whitespace-only input of the spec's example
scenario leaves a one-entry history unchanged and makes no calls. -/
theorem exploreWord_blank_input_no_calls_check :
    exploreWord (fun _ => some .null) (fun _ => "x".data)
      (fun _ => .resp 200) [("cat".data, mockRecord)] "   ".data =
      { history := [("cat".data, mockRecord)], modelCalls := 0,
        imageCalls := 0, outcome := .warning } :=
  exploreWord_blank_input_no_calls (fun _ => some .null) (fun _ => "x".data)
    (fun _ => .resp 200) [("cat".data, mockRecord)] "   ".data (by decide)

/-- C4: when the lookup fails with the format error, the triggering
word is not added to the history, every previously stored entry is left
unchanged, and no image call happens — the error aborts only the
current lookup. -/
theorem exploreWord_format_error_preserves_history
    (decode : List Char → Option Json) (llm : List Char → List Char)
    (http : List Char → HttpResult) (history : History) (word : List Char)
    (e : String) (hw : pyStrip word ≠ [])
    (herr : get_word_details decode llm (pyLower (pyStrip word)) = .error e) :
    (exploreWord decode llm http history word).history = history ∧
    (exploreWord decode llm http history word).outcome = .failure ∧
    (exploreWord decode llm http history word).imageCalls = 0 := by
  unfold exploreWord
  rw [if_neg hw, herr]
  exact ⟨rfl, rfl, rfl⟩

/-- Witness for C4: a decoder reporting malformed JSON makes the lookup
for `Dog ` fail, and the prior history entry for `cat` survives intact. -/
theorem exploreWord_format_error_preserves_history_check :
    (exploreWord (fun _ => none) (fun _ => []) (fun _ => .resp 200)
      [("cat".data, mockRecord)] "Dog ".data).history =
      [("cat".data, mockRecord)] ∧
    (exploreWord (fun _ => none) (fun _ => []) (fun _ => .resp 200)
      [("cat".data, mockRecord)] "Dog ".data).outcome = .failure ∧
    (exploreWord (fun _ => none) (fun _ => []) (fun _ => .resp 200)
      [("cat".data, mockRecord)] "Dog ".data).imageCalls = 0 :=
  exploreWord_format_error_preserves_history (fun _ => none) (fun _ => [])
    (fun _ => .resp 200) [("cat".data, mockRecord)] "Dog ".data
    "AI response format error." (by decide) rfl

/-- C6: `get_image_for_word` returns the constructed URL exactly when
the endpoint answers HTTP 200, and an absent reference on any non-200
status or raised transport failure; being a total function into
`Option`, it never propagates an exception to its caller. -/
theorem get_image_for_word_never_raises (http : List Char → HttpResult)
    (description : List Char) :
    (http (buildImageUrl description) = .resp 200 →
      get_image_for_word http description = some (buildImageUrl description)) ∧
    (http (buildImageUrl description) ≠ .resp 200 →
      get_image_for_word http description = none) := by
  constructor
  · intro h
    unfold get_image_for_word
    rw [h]
    rfl
  · intro h
    unfold get_image_for_word
    cases hh : http (buildImageUrl description) with
    | resp status =>
      have hs : status ≠ 200 := fun he => h (by rw [hh, he])
      show (if status = 200 then some (buildImageUrl description) else none) =
        none
      rw [if_neg hs]
    | exn => rfl

/-- Witness for C6: a mocked endpoint answering 404 yields no image,
one answering 200 yields the constructed URL. -/
theorem get_image_for_word_never_raises_check :
    get_image_for_word (fun _ => .resp 404) "a dog".data = none ∧
    get_image_for_word (fun _ => .resp 200) "a dog".data =
      some (buildImageUrl "a dog".data) :=
  ⟨(get_image_for_word_never_raises (fun _ => .resp 404) "a dog".data).2
    (by decide),
   (get_image_for_word_never_raises (fun _ => .resp 200) "a dog".data).1 rfl⟩

/-! ### History lemmas and claim C7 -/

theorem histGet_histPut (h : History) (k : List Char) (v : WordInfo) :
    histGet (histPut h k v) k = some v := by
  induction h with
  | nil => simp [histPut, histGet]
  | cons a t ih =>
    obtain ⟨k', v'⟩ := a
    by_cases hk : k' = k
    · simp [histPut, hk, histGet]
    · simp [histPut, hk, histGet, ih]

theorem countKey_histPut (h : History) (k : List Char) (v : WordInfo)
    (hu : countKey h k ≤ 1) : countKey (histPut h k v) k = 1 := by
  induction h with
  | nil => simp [histPut, countKey]
  | cons a t ih =>
    obtain ⟨k', v'⟩ := a
    by_cases hk : k' = k
    · subst hk
      have h0 : countKey t k' = 0 := by
        simp [countKey] at hu
        omega
      simp [histPut, countKey, h0]
    · have hu' : countKey t k ≤ 1 := by
        simp [countKey, hk] at hu
        exact hu
      simp [histPut, hk, countKey, ih hu']

/-- C7: storing a record under a normalized (trimmed, lowercased) word
and immediately retrieving that word returns exactly the stored record;
a second store under the same normalized word replaces the first, so
that retrieval returns the second record and exactly one entry exists
for that word afterwards. -/
theorem history_put_get_replace (h : History) (word : List Char)
    (v v' : WordInfo) (hu : countKey h (pyLower (pyStrip word)) ≤ 1) :
    histGet (histPut h (pyLower (pyStrip word)) v) (pyLower (pyStrip word)) =
      some v ∧
    histGet (histPut (histPut h (pyLower (pyStrip word)) v)
        (pyLower (pyStrip word)) v') (pyLower (pyStrip word)) = some v' ∧
    countKey (histPut (histPut h (pyLower (pyStrip word)) v)
        (pyLower (pyStrip word)) v') (pyLower (pyStrip word)) = 1 :=
  ⟨histGet_histPut _ _ _, histGet_histPut _ _ _,
   countKey_histPut _ _ _ (le_of_eq (countKey_histPut h _ v hu))⟩

/-- Witness for C7: two stores for the normalized form of `Happy` in an
empty history; the second record wins and one entry remains. -/
theorem history_put_get_replace_check :
    histGet (histPut [] (pyLower (pyStrip "Happy".data)) mockRecord)
      (pyLower (pyStrip "Happy".data)) = some mockRecord ∧
    histGet (histPut (histPut [] (pyLower (pyStrip "Happy".data)) mockRecord)
        (pyLower (pyStrip "Happy".data)) mockRecord2)
      (pyLower (pyStrip "Happy".data)) = some mockRecord2 ∧
    countKey (histPut (histPut [] (pyLower (pyStrip "Happy".data)) mockRecord)
        (pyLower (pyStrip "Happy".data)) mockRecord2)
      (pyLower (pyStrip "Happy".data)) = 1 :=
  history_put_get_replace [] "Happy".data mockRecord mockRecord2 (by decide)

/-! ### String lemmas for the fence-cleaning step and claim C3 -/

theorem lstrip_cons_not_ws {c : Char} {t : List Char}
    (hc : isPySpace c = false) : lstripWs (c :: t) = c :: t := by
  unfold lstripWs
  simp [List.dropWhile_cons, hc]

theorem lstrip_append_ws {w r : List Char}
    (hw : ∀ c ∈ w, isPySpace c = true) : lstripWs (w ++ r) = lstripWs r := by
  induction w with
  | nil => rfl
  | cons c t ih =>
    have hc := hw c (by simp)
    show lstripWs (c :: (t ++ r)) = lstripWs r
    unfold lstripWs
    rw [List.dropWhile_cons]
    simp only [hc, if_true]
    exact ih fun x hx => hw x (List.mem_cons_of_mem _ hx)

theorem lstrip_eq_self_of_pyStrip {p : List Char} (h : pyStrip p = p) :
    lstripWs p = p := by
  have h1 : (p.dropWhile isPySpace).length ≤ p.length :=
    (List.dropWhile_suffix isPySpace).length_le
  have h2 : p.length ≤ (p.dropWhile isPySpace).length := by
    have e1 : p.length =
        (((p.dropWhile isPySpace).reverse.dropWhile isPySpace).reverse).length := by
      conv_lhs => rw [← h]
      rfl
    rw [e1, List.length_reverse]
    calc ((p.dropWhile isPySpace).reverse.dropWhile isPySpace).length
        ≤ (p.dropWhile isPySpace).reverse.length :=
          (List.dropWhile_suffix isPySpace).length_le
      _ = (p.dropWhile isPySpace).length := List.length_reverse _
  exact (List.dropWhile_suffix isPySpace).eq_of_length (le_antisymm h1 h2)

theorem rstrip_eq_self_of_pyStrip {p : List Char} (h : pyStrip p = p) :
    rstripWs p = p := by
  have hl := lstrip_eq_self_of_pyStrip h
  unfold pyStrip at h
  rw [hl] at h
  exact h

theorem head_not_ws_of_lstrip {c : Char} {t : List Char}
    (h : lstripWs (c :: t) = c :: t) : isPySpace c = false := by
  by_contra hcn
  have hc : isPySpace c = true := by
    cases hb : isPySpace c with
    | true => rfl
    | false => exact absurd hb hcn
  unfold lstripWs at h
  rw [List.dropWhile_cons] at h
  simp only [hc, if_true] at h
  have hle : (t.dropWhile isPySpace).length ≤ t.length :=
    (List.dropWhile_suffix isPySpace).length_le
  rw [h] at hle
  simp at hle

theorem rstrip_append_of_rstrip {p w : List Char} (hp : rstripWs p = p)
    (hw : ∀ c ∈ w, isPySpace c = true) : rstripWs (p ++ w) = p := by
  unfold rstripWs
  rw [List.reverse_append]
  have h2 : (w.reverse ++ p.reverse).dropWhile isPySpace =
      p.reverse.dropWhile isPySpace := by
    have h3 := lstrip_append_ws (r := p.reverse)
      (fun c hc => hw c (List.mem_reverse.mp hc))
    unfold lstripWs at h3
    exact h3
  rw [h2]
  unfold rstripWs at hp
  exact hp

theorem stripTrailingFence_append_ticks (body : List Char) :
    stripTrailingFence (body ++ ticks) = rstripWs body := by
  unfold stripTrailingFence
  have hlen : (body ++ ticks).length - 3 = body.length := by
    rw [List.length_append]
    have ht : ticks.length = 3 := rfl
    rw [ht]
    omega
  rw [hlen, List.drop_left, List.take_left, if_pos rfl]

theorem rstrip_append_ticks (l : List Char) :
    rstripWs (l ++ ticks) = l ++ ticks := by
  unfold rstripWs
  rw [List.reverse_append]
  have h1 : ticks.reverse = '`' :: '`' :: '`' :: [] := rfl
  rw [h1]
  simp only [List.cons_append, List.nil_append]
  have h3 : List.dropWhile isPySpace ('`' :: ('`' :: ('`' :: l.reverse))) =
      '`' :: ('`' :: ('`' :: l.reverse)) := by
    have h4 := lstrip_cons_not_ws (c := '`') (t := '`' :: ('`' :: l.reverse))
      (by decide)
    unfold lstripWs at h4
    exact h4
  rw [h3]
  have h2 : ('`' :: ('`' :: ('`' :: l.reverse))) = ticks.reverse ++ l.reverse := by
    rw [h1]
    rfl
  rw [h2, List.reverse_append, List.reverse_reverse, List.reverse_reverse]

/-- Counterexample to C3: a response wrapped in plain triple-backtick
fences (no `json` language tag) is a response wrapped in leading and
trailing fenced-block markers, yet the cleaning step removes only the
trailing fence — the result keeps the leading fence and is not the
unwrapped payload `null`. -/
theorem cleanResponse_bare_fence_counterexample :
    cleanResponse "```\nnull\n```".data = "```\nnull".data ∧
    cleanResponse "```\nnull\n```".data ≠ "null".data :=
  ⟨by decide, by decide⟩

/-- C3 (amended): for every raw model response wrapped in a leading
lowercase triple-backtick `json` fence and a trailing triple-backtick
fence, with whitespace between the markers and a payload that carries
no leading or trailing whitespace of its own, the cleaning step returns
exactly the unwrapped payload, byte for byte. Responses wrapped in
other fence shapes (for example a bare leading ``` fence) are not fully
unwrapped. -/
theorem cleanResponse_json_fence_roundtrip (p w1 w2 : List Char)
    (h1 : ∀ c ∈ w1, isPySpace c = true) (h2 : ∀ c ∈ w2, isPySpace c = true)
    (hp : pyStrip p = p) :
    cleanResponse (fenceOpen ++ (w1 ++ (p ++ (w2 ++ ticks)))) = p := by
  have hlp := lstrip_eq_self_of_pyStrip hp
  have hrp := rstrip_eq_self_of_pyStrip hp
  unfold cleanResponse
  have hstrip : pyStrip (fenceOpen ++ (w1 ++ (p ++ (w2 ++ ticks)))) =
      fenceOpen ++ (w1 ++ (p ++ (w2 ++ ticks))) := by
    unfold pyStrip
    have hl : lstripWs (fenceOpen ++ (w1 ++ (p ++ (w2 ++ ticks)))) =
        fenceOpen ++ (w1 ++ (p ++ (w2 ++ ticks))) := by
      have hcons : fenceOpen ++ (w1 ++ (p ++ (w2 ++ ticks))) =
          '`' :: ("``json".data ++ (w1 ++ (p ++ (w2 ++ ticks)))) := rfl
      rw [hcons, lstrip_cons_not_ws (by decide)]
    rw [hl]
    have hassoc : fenceOpen ++ (w1 ++ (p ++ (w2 ++ ticks))) =
        (fenceOpen ++ w1 ++ p ++ w2) ++ ticks := by
      simp [List.append_assoc]
    rw [hassoc, rstrip_append_ticks]
  rw [hstrip]
  have hlead : stripLeadingFence (fenceOpen ++ (w1 ++ (p ++ (w2 ++ ticks)))) =
      lstripWs (w1 ++ (p ++ (w2 ++ ticks))) := by
    unfold stripLeadingFence
    have h7 : (7 : Nat) = fenceOpen.length := rfl
    rw [h7, List.take_left, List.drop_left, if_pos rfl]
  rw [hlead, lstrip_append_ws h1]
  cases p with
  | nil =>
    rw [List.nil_append, lstrip_append_ws h2]
    decide
  | cons c t =>
    have hc : isPySpace c = false := head_not_ws_of_lstrip hlp
    have hcons2 : (c :: t) ++ (w2 ++ ticks) = c :: (t ++ (w2 ++ ticks)) := rfl
    rw [hcons2, lstrip_cons_not_ws hc]
    have hsh : c :: (t ++ (w2 ++ ticks)) = ((c :: t) ++ w2) ++ ticks := by
      simp [List.append_assoc]
    rw [hsh, stripTrailingFence_append_ticks]
    exact rstrip_append_of_rstrip hrp h2

/-- Witness for the amended C3: the fenced response
```` ```json\nnull\n``` ```` cleans to exactly `null`. -/
theorem cleanResponse_json_fence_roundtrip_check :
    cleanResponse (fenceOpen ++
      ("\n".data ++ ("null".data ++ ("\n".data ++ ticks)))) = "null".data :=
  cleanResponse_json_fence_roundtrip "null".data "\n".data "\n".data
    (by decide) (by decide) (by decide)
